import Mathlib

/-!
Verification of the go-blar entity-registry engine.

Shallow embedding of the Go sources:
  - internal/meta/parse.go   (Parse, parseField, parseGormTag, toSnakeCase, ClearRegistry)
  - internal/meta (types)    (FieldMeta, EntityMeta, AggregateMeta, accessors)
  - internal/hooks/hooks.go  (CallBeforeCreate .. CallAfterDelete)
  - internal/repo            (Repository and its six operations)
  - internal/http            (RegisterEntityRoutes, toURLPath)

Go strings are modelled as Lean `String` (reflect tag values are ASCII in
practice; `strings.ToLower` is modelled on the ASCII range). Go's reflect
types are modelled by the inductive `GoType`; a struct field carries its
name, its two tag values and its exportedness (PkgPath == "" in Go).
-/

namespace GoBlar

/-- ASCII lowercase test, mirroring the Go comparisons `r >= 'a' && r <= 'z'`. -/
def isLowerAscii (c : Char) : Bool :=
  97 ≤ c.toNat && c.toNat ≤ 122

/-- ASCII uppercase test, mirroring the Go comparisons `r >= 'A' && r <= 'Z'`. -/
def isUpperAscii (c : Char) : Bool :=
  65 ≤ c.toNat && c.toNat ≤ 90

/-- ASCII case folding of one character; models `strings.ToLower` on the
ASCII inputs the library handles. -/
def toLowerAscii (c : Char) : Char :=
  if isUpperAscii c then Char.ofNat (c.toNat + 32) else c

/-- Core loop of `toSnakeCase` (parse.go lines 158-178): `prev` is the
previously written source rune `runes[i-1]`, the lookahead `runes[i+1]`
is the head of the remaining list. Mirrors the if/elif cascade of the
source: pass `'_'` through; before an uppercase rune insert `'_'` when
the previous rune is a lowercase letter, or else when the previous rune
is not `'_'` and the next rune is a lowercase letter. -/
def snakeCore : Char → List Char → List Char
  | _, [] => []
  | prev, c :: rest =>
    if c = '_' then
      c :: snakeCore c rest
    else if isUpperAscii c then
      if prev ≠ '_' && isLowerAscii prev then
        '_' :: c :: snakeCore c rest
      else if prev ≠ '_' && (match rest.head? with
                             | some n => isLowerAscii n
                             | none => false) then
        '_' :: c :: snakeCore c rest
      else
        c :: snakeCore c rest
    else
      c :: snakeCore c rest

/-- toSnakeCase (parse.go lines 154-180): the first rune is written
unconditionally, the rest via `snakeCore`, then the whole result is
lower-cased. -/
def toSnakeCase (s : String) : String :=
  match s.data with
  | [] => ""
  | c :: rest => ⟨(c :: snakeCore c rest).map toLowerAscii⟩

/-- Generic spec-style snake-case walker: identical traversal shape, with
the insertion decision abstracted into `ins prev c next?`. Used to state
the spec's claimed insertion rule and its amended form. -/
def specSnakeCore (ins : Char → Char → Option Char → Bool) : Char → List Char → List Char
  | _, [] => []
  | prev, c :: rest =>
    if c = '_' then
      c :: specSnakeCore ins c rest
    else if ins prev c rest.head? then
      '_' :: c :: specSnakeCore ins c rest
    else
      c :: specSnakeCore ins c rest

/-- Modelled from the spec claim C4 words: insert before an uppercase
character only when (a) the previous character is lowercase, or (b) the
previous character is UPPERCASE and the next character is lowercase;
an adjacent underscore suppresses insertion. -/
def insClaim (prev c : Char) (next? : Option Char) : Bool :=
  isUpperAscii c && prev ≠ '_' &&
    (isLowerAscii prev ||
      (isUpperAscii prev && (match next? with
                             | some n => isLowerAscii n
                             | none => false)))

/-- Amended insertion rule: insert before an uppercase character when
(a) the previous character is lowercase, or (b) the previous character is
neither an underscore nor lowercase and the next character is lowercase. -/
def insAmended (prev c : Char) (next? : Option Char) : Bool :=
  isUpperAscii c && prev ≠ '_' &&
    (isLowerAscii prev ||
      (!isLowerAscii prev && (match next? with
                              | some n => isLowerAscii n
                              | none => false)))

/-- Snake-case transform as the spec claim C4 states it. -/
def snakeCaseClaim (s : String) : String :=
  match s.data with
  | [] => ""
  | c :: rest => ⟨(c :: specSnakeCore insClaim c rest).map toLowerAscii⟩

/-- Snake-case transform under the amended insertion rule. -/
def snakeCaseAmended (s : String) : String :=
  match s.data with
  | [] => ""
  | c :: rest => ⟨(c :: specSnakeCore insAmended c rest).map toLowerAscii⟩

/-- ASCII whitespace test; models the characters `strings.TrimSpace`
strips on the ASCII tag strings this library sees. -/
def isSpaceAscii (c : Char) : Bool :=
  c = ' ' || c = '\t' || c = '\n' || c = '\r'

/-- Models `strings.TrimSpace` on ASCII input. -/
def trimSpace (s : String) : String :=
  ⟨((s.data.dropWhile isSpaceAscii).reverse.dropWhile isSpaceAscii).reverse⟩

/-- Models `strings.Contains s sub`: some suffix of `s` starts with `sub`. -/
def goContains (s sub : String) : Bool :=
  s.data.tails.any (fun t => sub.data.isPrefixOf t)

/-- Character-level splitter underlying `goSplit`; the result list is
never empty. -/
def splitChar (sep : Char) : List Char → List (List Char)
  | [] => [[]]
  | c :: rest =>
    match splitChar sep rest with
    | [] => [[c]]
    | g :: gs => if c = sep then [] :: g :: gs else (c :: g) :: gs

/-- Models `strings.Split s sep` for the one-character separators the
source uses (always ";"). -/
def goSplit (s : String) (sep : Char) : List String :=
  (splitChar sep s.data).map (fun l => ⟨l⟩)

/-- Models `strings.HasPrefix s pre`. -/
def goHasPrefix (s pre : String) : Bool :=
  pre.data.isPrefixOf s.data

/-- Models `strings.TrimPrefix s pre` when the prefix is known present:
drop the prefix length. -/
def goDrop (s : String) (n : Nat) : String :=
  ⟨s.data.drop n⟩

/-- One struct field as reflect exposes it to parse.go: its name, the
values of its two tags (`sf.Tag.Get "go-blar"` and `sf.Tag.Get "gorm"`,
empty string when absent), and whether it is exported
(`sf.PkgPath == ""`). The `reflect.Type` and `Index` of the field play
no role in any claim and are omitted from the embedding. -/
structure GoField where
  name : String
  blarTag : String
  gormTag : String
  exported : Bool
deriving DecidableEq, Repr

/-- A named Go struct type: declared name and fields in declaration order. -/
structure GoStruct where
  name : String
  fields : List GoField
deriving DecidableEq, Repr

/-- The shapes of input values `Parse` distinguishes: a struct type, a
pointer type, or anything else (primitives, slices, ...), abbreviated
to its type string. -/
inductive GoType where
  | struct_ : GoStruct → GoType
  | ptr : GoType → GoType
  | prim : String → GoType
deriving DecidableEq, Repr

/-- Models `reflect.Type.String()` as used for the registry key. -/
def typeString : GoType → String
  | .struct_ s => s.name
  | .ptr t => "*" ++ typeString t
  | .prim n => n

/-- Models the single pointer dereference `if t.Kind() == reflect.Ptr
then t = t.Elem()` at the top of `Parse`. -/
def derefOnce : GoType → GoType
  | .ptr t => t
  | t => t

/-- ForeignKey metadata (meta types source). -/
structure ForeignKey where
  tableName : String
  fieldName : String
deriving DecidableEq, Repr

/-- ManyToMany metadata (meta types source). -/
structure ManyToMany where
  tableName : String
  fieldName : String
deriving DecidableEq, Repr

/-- AggregateMeta: aggregate name, kind string and relation field path. -/
structure AggregateMeta where
  name : String
  type_ : String
  field : String
deriving DecidableEq, Repr

/-- FieldMeta from the meta types source; the `Type` and `Index` fields
(reflect data) are omitted, everything the claims touch is kept. -/
structure FieldMeta where
  name : String
  isPK : Bool
  fk : Option ForeignKey
  nested : Bool
  m2m : Option ManyToMany
  list : Bool
  hidden : Bool
  readOnly : Bool
deriving DecidableEq, Repr

/-- EntityMeta from the meta types source; `Type` is represented by its
type string, the `Nested` slice (never populated by parse.go) is
omitted. -/
structure EntityMeta where
  typeName : String
  name : String
  tableName : String
  pkField : Option FieldMeta
  fields : List FieldMeta
  aggregates : List AggregateMeta
deriving DecidableEq, Repr

/-- GetFieldByName accessor on EntityMeta (meta types source). -/
def GetFieldByName (em : EntityMeta) (n : String) : Option FieldMeta :=
  em.fields.find? (fun f => f.name = n)

/-- GetAggregateByName accessor on EntityMeta (meta types source). -/
def GetAggregateByName (em : EntityMeta) (n : String) : Option AggregateMeta :=
  em.aggregates.find? (fun a => a.name = n)

/-- One switch arm of the go-blar tag loop in `parseField`
(parse.go lines 85-125): trim the fragment, then update the field
metadata. The `count:`/`sum:` arms of the source construct an
`AggregateMeta` and immediately discard it (`_ = meta`), which is
mirrored here by binding and dropping the value. -/
def parseBlarPart (fm : FieldMeta) (part0 : String) : FieldMeta :=
  let part := trimSpace part0
  if part = "pk" then { fm with isPK := true }
  else if part = "nested" then { fm with nested := true }
  else if part = "list" then { fm with list := true }
  else if part = "hidden" then { fm with hidden := true }
  else if part = "readonly" then { fm with readOnly := true }
  else if goHasPrefix part "fk:" then
    { fm with fk := some ⟨goDrop part 3, ""⟩ }
  else if goHasPrefix part "m2m:" then
    { fm with m2m := some ⟨goDrop part 4, ""⟩ }
  else if goHasPrefix part "count:" then
    let _dropped : AggregateMeta := ⟨fm.name, "count", goDrop part 6⟩
    fm
  else if goHasPrefix part "sum:" then
    let _dropped : AggregateMeta := ⟨fm.name, "sum", goDrop part 4⟩
    fm
  else fm

/-- parseField (parse.go lines 69-134): start from a bare FieldMeta,
fold the semicolon-separated go-blar tag fragments when the tag is
nonempty, then set the primary-key flag when the gorm tag contains the
substring "primaryKey". The source never returns nil here. -/
def parseField (sf : GoField) : FieldMeta :=
  let fm : FieldMeta := ⟨sf.name, false, none, false, none, false, false, false⟩
  let fm :=
    if sf.blarTag ≠ "" then (goSplit sf.blarTag ';').foldl parseBlarPart fm
    else fm
  if goContains sf.gormTag "primaryKey" then { fm with isPK := true } else fm

/-- parseGormTag (parse.go lines 137-151): first semicolon-separated,
space-trimmed fragment starting with "table:" yields the table name;
otherwise the empty string. -/
def parseGormTag (tag : String) : String :=
  if tag = "" then ""
  else
    match (goSplit tag ';').find? (fun p => goHasPrefix (trimSpace p) "table:") with
    | some p => goDrop (trimSpace p) 6
    | none => ""

/-- Visible-field pass of the `Parse` loop (parse.go lines 43-60):
unexported fields are skipped, each remaining field is parsed in
declaration order. -/
def visibleFieldMetas (fs : List GoField) : List FieldMeta :=
  (fs.filter (fun f => f.exported)).map parseField

/-- Primary-key tracking of the `Parse` loop (parse.go lines 56-58): the
loop assigns `meta.PKField = fm` for every parsed field whose IsPK flag
is set, so each later match overwrites the earlier one. -/
def trackPK (fms : List FieldMeta) : Option FieldMeta :=
  fms.foldl (fun acc fm => if fm.isPK then some fm else acc) none

/-- Cache-miss body of `Parse` (parse.go lines 26-60): defaults, the
table-name override read from the gorm tag of a field named "gorm"
(`t.FieldByName "gorm"`), then the field loop. The `Aggregates` slice
is initialized empty and nothing in the source ever appends to it. -/
def buildMeta (s : GoStruct) : EntityMeta :=
  let defaultTable := toSnakeCase s.name ++ "s"
  let table :=
    match s.fields.find? (fun f => f.name = "gorm") with
    | some gf =>
      let tn := parseGormTag gf.gormTag
      if tn ≠ "" then tn else defaultTable
    | none => defaultTable
  { typeName := s.name
    name := s.name
    tableName := table
    pkField := trackPK (visibleFieldMetas s.fields)
    fields := visibleFieldMetas s.fields
    aggregates := [] }

/-- The process-wide registry (parse.go line 9), modelled as an
association list keyed by the type string. -/
abbrev Registry : Type := List (String × EntityMeta)

/-- Map lookup on the registry. -/
def regLookup (reg : Registry) (k : String) : Option EntityMeta :=
  (List.find? (fun p => p.1 = k) reg).map (fun p => p.2)

/-- The empty registry: the initial state, and the state ClearRegistry
(parse.go lines 183-185) resets to. -/
def emptyRegistry : Registry := []

/-- Outcome of one `Parse` call: the returned metadata, the returned
error (the source has no code path that returns a non-nil error), or a
Go run-time panic raised inside `Parse`. -/
inductive ParseResult where
  | ok : EntityMeta → ParseResult
  | err : String → ParseResult
  | panics : String → ParseResult
deriving DecidableEq, Repr

/-- True exactly on the error-return outcome. -/
def ParseResult.isErr : ParseResult → Bool
  | .err _ => true
  | _ => false

/-- Panic message of `t.Kind()` on the nil `reflect.Type` produced by
`reflect.TypeOf(nil)`. -/
def nilPanicMsg : String :=
  "runtime error: invalid memory address or nil pointer dereference"

/-- Panic message of `t.FieldByName` on a non-struct type. -/
def structPanicMsg : String :=
  "reflect: FieldByName of non-struct type"

/-- Parse (parse.go lines 13-66). The input is `none` for a nil entity
value and `some t` otherwise. Nil panics at `t.Kind()`; a pointer is
dereferenced one level; the registry is consulted with the type string
as key; on a miss, a struct type is parsed via `buildMeta` and the new
metadata is stored under the key before being returned, while any other
type panics at `t.FieldByName` before anything is cached. -/
def Parse (reg : Registry) (v : Option GoType) : ParseResult × Registry :=
  match v with
  | none => (.panics nilPanicMsg, reg)
  | some t0 =>
    let t := derefOnce t0
    let key := typeString t
    match regLookup reg key with
    | some m => (.ok m, reg)
    | none =>
      match t with
      | .struct_ s => (.ok (buildMeta s), (key, buildMeta s) :: reg)
      | _ => (.panics structPanicMsg, reg)

/-- True when the input value resolves to a struct type after one
pointer dereference: the condition the spec calls "resolvable to a
structural type". -/
def resolvesToStruct : Option GoType → Bool
  | none => false
  | some t =>
    match derefOnce t with
    | .struct_ _ => true
    | _ => false

/-- Byte sequence of an ASCII string, for faithful modelling of the
byte-level URL path construction in internal/http. -/
def strBytes (s : String) : List Nat :=
  s.data.map Char.toNat

/-- Body of the `toURLPath` loop (internal/http router source, lines
115-124): at every position the source appends `byte(r + 'a' - 'A' + 1)`
— that is `r + 33` truncated to a byte — and before an uppercase rune at
a positive index it first appends `'-'` (byte 45). `first` is true at
index 0. -/
def toURLPathAux : Bool → List Char → List Nat
  | _, [] => []
  | first, c :: rest =>
    let b := (c.toNat + 33) % 256
    if !first && isUpperAscii c then
      45 :: b :: toURLPathAux false rest
    else
      b :: toURLPathAux false rest

/-- toURLPath (internal/http router source): result as the byte sequence
the Go code builds. -/
def toURLPath (s : String) : List Nat :=
  toURLPathAux true s.data

/-- HTTP methods used by the generated routes. -/
inductive Method where
  | post | get | put | delete_
deriving DecidableEq, Repr

/-- The path-parameter segment literally written as `"/\x7bid\x7d"` in
the source, as bytes: slash, open brace, i, d, close brace. -/
def idSegment : List Nat := [47, 123, 105, 100, 125]

/-- RegisterEntityRoutes (internal/http router source, lines 94-112):
derive the resource segment with `toURLPath` from the entity name, then
register exactly these five method/path pairs, in source order. Paths
are kept as byte sequences because `toURLPath` emits non-ASCII bytes. -/
def RegisterEntityRoutes (m : EntityMeta) : List (Method × List Nat) :=
  let res := 47 :: toURLPath m.name
  [ (.post, res),
    (.get, res),
    (.get, res ++ idSegment),
    (.put, res ++ idSegment),
    (.delete_, res ++ idSegment) ]

/-- Go error values compared by identity of their message here. -/
structure GoError where
  msg : String
deriving DecidableEq, Repr

/-- gorm.ErrInvalidDB, the sentinel every Repository operation returns
when no driver handle was injected; the spec names this condition
`NoStorageConfigured`. -/
def NoStorageConfigured : GoError := ⟨"invalid db"⟩

/-- Names of the six gorm calls the Repository can forward to, used to
trace which storage operations a Repository call performs. -/
inductive StorageOp where
  | createOp | firstOp | findOp | saveOp | deleteOp | countOp
deriving DecidableEq, Repr

/-- The injected storage-driver handle (`*gorm.DB`), abstracted to the
six operations repository.go forwards to. Entities are `T`, primary
keys are `Nat`. -/
structure Driver (T : Type) where
  createFn : T → Except GoError T
  firstFn : Nat → Except GoError T
  findFn : Unit → Except GoError (List T)
  saveFn : T → Except GoError T
  deleteFn : Nat → Except GoError Unit
  countFn : Unit → Except GoError Nat

/-- Repository[T] (internal/repo source): the optionally-injected driver
handle (`db == nil` is modelled by `none`) and the entity metadata. -/
structure Repository (T : Type) where
  db : Option (Driver T)
  meta : EntityMeta

/-- Request context, opaque to the embedding: the repository only
threads it through to the driver. -/
structure Ctx where
deriving DecidableEq, Repr

/-- Repository.Create: nil-db check, then one driver create call; the
second component records which storage operations were invoked. -/
def Repository.create (r : Repository T) (_ctx : Ctx) (e : T) :
    Except GoError T × List StorageOp :=
  match r.db with
  | none => (.error NoStorageConfigured, [])
  | some d => (d.createFn e, [.createOp])

/-- Repository.GetByID: nil-db check, then one driver first call. -/
def Repository.getByID (r : Repository T) (_ctx : Ctx) (id : Nat) :
    Except GoError T × List StorageOp :=
  match r.db with
  | none => (.error NoStorageConfigured, [])
  | some d => (d.firstFn id, [.firstOp])

/-- Repository.GetAll: nil-db check, then one driver find call. -/
def Repository.getAll (r : Repository T) (_ctx : Ctx) :
    Except GoError (List T) × List StorageOp :=
  match r.db with
  | none => (.error NoStorageConfigured, [])
  | some d => (d.findFn (), [.findOp])

/-- Repository.Update: nil-db check, then one driver save call. -/
def Repository.update (r : Repository T) (_ctx : Ctx) (e : T) :
    Except GoError T × List StorageOp :=
  match r.db with
  | none => (.error NoStorageConfigured, [])
  | some d => (d.saveFn e, [.saveOp])

/-- Repository.Delete: nil-db check, then one driver delete call. -/
def Repository.delete (r : Repository T) (_ctx : Ctx) (id : Nat) :
    Except GoError Unit × List StorageOp :=
  match r.db with
  | none => (.error NoStorageConfigured, [])
  | some d => (d.deleteFn id, [.deleteOp])

/-- Repository.Count: nil-db check, then one driver count call. -/
def Repository.count (r : Repository T) (_ctx : Ctx) :
    Except GoError Nat × List StorageOp :=
  match r.db with
  | none => (.error NoStorageConfigured, [])
  | some d => (d.countFn (), [.countOp])

/-- Transaction handle passed to hooks, opaque to the dispatcher. -/
structure Tx where
deriving DecidableEq, Repr

/-- An entity instance as the hook dispatcher sees it: mutable receiver
state of type `S` plus, for each of the six hook interfaces, the
optional method implementation (pointer-receiver methods become
functions from the receiver state to the updated state and the returned
error). `none` models an entity that does not implement the interface,
so the type assertion in hooks.go fails. -/
structure HookEntity (S : Type) where
  state : S
  beforeCreateImpl : Option (Ctx → Tx → S → S × Option GoError)
  afterCreateImpl : Option (Ctx → Tx → S → S × Option GoError)
  beforeUpdateImpl : Option (Ctx → Tx → S → S × Option GoError)
  afterUpdateImpl : Option (Ctx → Tx → S → S × Option GoError)
  beforeDeleteImpl : Option (Ctx → Tx → S → S × Option GoError)
  afterDeleteImpl : Option (Ctx → Tx → S → S × Option GoError)

/-- Shared shape of the six dispatch functions in hooks.go: type-assert,
invoke the single method once when present and propagate its result,
otherwise return nil. The `Nat` component counts how many hook
invocations the dispatch performed. -/
def dispatchHook (impl : Option (Ctx → Tx → S → S × Option GoError))
    (ctx : Ctx) (e : HookEntity S) (tx : Tx) :
    HookEntity S × Option GoError × Nat :=
  match impl with
  | some f =>
    ({ e with state := (f ctx tx e.state).1 }, (f ctx tx e.state).2, 1)
  | none => (e, none, 0)

/-- CallBeforeCreate (hooks.go lines 11-16). -/
def CallBeforeCreate (ctx : Ctx) (e : HookEntity S) (tx : Tx) :
    HookEntity S × Option GoError × Nat :=
  dispatchHook e.beforeCreateImpl ctx e tx

/-- CallAfterCreate (hooks.go lines 19-24). -/
def CallAfterCreate (ctx : Ctx) (e : HookEntity S) (tx : Tx) :
    HookEntity S × Option GoError × Nat :=
  dispatchHook e.afterCreateImpl ctx e tx

/-- CallBeforeUpdate (hooks.go lines 27-32). -/
def CallBeforeUpdate (ctx : Ctx) (e : HookEntity S) (tx : Tx) :
    HookEntity S × Option GoError × Nat :=
  dispatchHook e.beforeUpdateImpl ctx e tx

/-- CallAfterUpdate (hooks.go lines 35-40). -/
def CallAfterUpdate (ctx : Ctx) (e : HookEntity S) (tx : Tx) :
    HookEntity S × Option GoError × Nat :=
  dispatchHook e.afterUpdateImpl ctx e tx

/-- CallBeforeDelete (hooks.go lines 43-48). -/
def CallBeforeDelete (ctx : Ctx) (e : HookEntity S) (tx : Tx) :
    HookEntity S × Option GoError × Nat :=
  dispatchHook e.beforeDeleteImpl ctx e tx

/-- CallAfterDelete (hooks.go lines 51-56). -/
def CallAfterDelete (ctx : Ctx) (e : HookEntity S) (tx : Tx) :
    HookEntity S × Option GoError × Nat :=
  dispatchHook e.afterDeleteImpl ctx e tx

/-! Concrete example entities from the spec scenario and the tests. -/

/-- The spec scenario entity `User{ID, Name, Email}` with `ID` tagged pk. -/
def userStruct : GoStruct :=
  ⟨"User", [⟨"ID", "pk", "", true⟩, ⟨"Name", "", "", true⟩, ⟨"Email", "", "", true⟩]⟩

/-- The spec scenario entity `Product{ID, Name, Price}` with `ID` tagged pk. -/
def productStruct : GoStruct :=
  ⟨"Product", [⟨"ID", "pk", "", true⟩, ⟨"Name", "", "", true⟩, ⟨"Price", "", "", true⟩]⟩

/-- A struct in which two fields are marked primary key. -/
def pairStruct : GoStruct :=
  ⟨"Pair", [⟨"A", "pk", "", true⟩, ⟨"B", "pk", "", true⟩]⟩

/-- A struct declaring a count aggregate over the relation path Items. -/
def orderStruct : GoStruct :=
  ⟨"Order", [⟨"ID", "pk", "", true⟩, ⟨"Total", "count:Items", "", true⟩]⟩

/-- A struct with an explicit table-name override: the field named "gorm"
carries the storage-mapping fragment table:stock. -/
def invStruct : GoStruct :=
  ⟨"Inventory", [⟨"gorm", "", "table:stock", false⟩, ⟨"ID", "pk", "", true⟩]⟩

/-- A field whose gorm tag contains "primaryKey" only inside a longer
fragment, with no go-blar tag at all. -/
def taggedField : GoField :=
  ⟨"Legacy", "", "column:oldprimaryKeyCol", true⟩

/-- Metadata the parser derives for `userStruct`. -/
def userMeta : EntityMeta := buildMeta userStruct

/-- Metadata the parser derives for `productStruct`. -/
def productMeta : EntityMeta := buildMeta productStruct

/-- Metadata the parser derives for `pairStruct`. -/
def pairMeta : EntityMeta := buildMeta pairStruct

/-- Metadata the parser derives for `invStruct`. -/
def invMeta : EntityMeta := buildMeta invStruct

/-- Registry contents after parsing `userStruct` from a fresh registry. -/
def userReg1 : Registry := [("User", userMeta)]

/-- Registry contents after parsing `productStruct` from a fresh registry. -/
def productReg1 : Registry := [("Product", productMeta)]

/-- Registry contents after parsing `pairStruct` from a fresh registry. -/
def pairReg1 : Registry := [("Pair", pairMeta)]

/-- Registry contents after parsing `invStruct` from a fresh registry. -/
def invReg1 : Registry := [("Inventory", invMeta)]

/-- A repository with no injected driver handle (`db == nil`). -/
def noDbRepo : Repository Unit := ⟨none, userMeta⟩

/-- Receiver state of the mock hook entity from the hooks tests: one
"called" flag per lifecycle point. -/
structure Flags where
  bc : Bool
  ac : Bool
  bu : Bool
  au : Bool
  bd : Bool
  ad : Bool
deriving DecidableEq, Repr

/-- Mock BeforeCreate implementation: set the flag, succeed. -/
def mockBC : Ctx → Tx → Flags → Flags × Option GoError :=
  fun _ _ s => ({ s with bc := true }, none)

/-- Mock AfterCreate implementation: set the flag, succeed. -/
def mockAC : Ctx → Tx → Flags → Flags × Option GoError :=
  fun _ _ s => ({ s with ac := true }, none)

/-- Mock BeforeUpdate implementation: set the flag, succeed. -/
def mockBU : Ctx → Tx → Flags → Flags × Option GoError :=
  fun _ _ s => ({ s with bu := true }, none)

/-- Mock AfterUpdate implementation: set the flag, succeed. -/
def mockAU : Ctx → Tx → Flags → Flags × Option GoError :=
  fun _ _ s => ({ s with au := true }, none)

/-- Mock BeforeDelete implementation: set the flag, succeed. -/
def mockBD : Ctx → Tx → Flags → Flags × Option GoError :=
  fun _ _ s => ({ s with bd := true }, none)

/-- Mock AfterDelete implementation: set the flag, succeed. -/
def mockAD : Ctx → Tx → Flags → Flags × Option GoError :=
  fun _ _ s => ({ s with ad := true }, none)

/-- A failing BeforeCreate implementation, mirroring the ShouldFail mock. -/
def mockFailBC : Ctx → Tx → Flags → Flags × Option GoError :=
  fun _ _ s => ({ s with bc := true }, some ⟨"before create failed"⟩)

/-- Mock entity implementing all six hook interfaces. -/
def mockEntity : HookEntity Flags :=
  ⟨⟨false, false, false, false, false, false⟩,
    some mockBC, some mockAC, some mockBU, some mockAU, some mockBD, some mockAD⟩

/-- Entity implementing no hook interface at all. -/
def bareEntity : HookEntity Flags :=
  ⟨⟨false, false, false, false, false, false⟩,
    none, none, none, none, none, none⟩

/-- Entity whose BeforeCreate hook fails. -/
def failEntity : HookEntity Flags :=
  ⟨⟨false, false, false, false, false, false⟩,
    some mockFailBC, none, none, none, none, none⟩

/-! Helper lemmas. -/

/-- A cache hit returns the stored metadata and leaves the registry
unchanged. -/
theorem parse_hit (reg : Registry) (t0 : GoType) (m : EntityMeta)
    (h : regLookup reg (typeString (derefOnce t0)) = some m) :
    Parse reg (some t0) = (.ok m, reg) := by
  simp [Parse, h]

/-- Any `Parse` call preserves every key already present in the
registry: new entries are only prepended under a key whose lookup was
`none`. -/
theorem regLookup_preserved (reg : Registry) (v : Option GoType) (k : String)
    (m : EntityMeta) (h : regLookup reg k = some m) :
    regLookup (Parse reg v).2 k = some m := by
  cases v with
  | none => simpa [Parse]
  | some t0 =>
    simp only [Parse]
    cases hl : regLookup reg (typeString (derefOnce t0)) with
    | some m0 => simpa [hl]
    | none =>
      cases ht : derefOnce t0 with
      | struct_ s =>
        simp only [hl, ht]
        by_cases hk : typeString (GoType.struct_ s) = k
        · rw [ht, hk] at hl
          rw [hl] at h
          exact absurd h (by simp)
        · simpa [regLookup, List.find?, hk] using h
      | ptr t => simpa [hl, ht]
      | prim n => simpa [hl, ht]

/-- Folding the keep-last update over a list computes the last element
satisfying the predicate, defaulting to the accumulator. -/
theorem keepLast_foldl (p : FieldMeta → Bool) :
    ∀ (l : List FieldMeta) (acc : Option FieldMeta),
      l.foldl (fun a fm => if p fm then some fm else a) acc
        = ((l.filter p).getLast?).elim acc some := by
  intro l
  induction l with
  | nil => intro acc; simp
  | cons x xs ih =>
    intro acc
    rw [List.foldl_cons, List.filter_cons]
    by_cases hx : p x = true
    · simp only [hx, if_pos, ite_true, ih]
      cases hfp : xs.filter p with
      | nil => simp
      | cons z zs =>
        rw [List.getLast?_cons_cons]
        cases hgl : (z :: zs).getLast? with
        | none => exact absurd (List.getLast?_eq_none_iff.mp hgl) (by simp)
        | some y => rfl
    · simp [hx, ih]

/-- The primary-key tracking loop keeps the last flagged field. -/
theorem trackPK_eq_getLast? (fms : List FieldMeta) :
    trackPK fms = (fms.filter (fun f => f.isPK)).getLast? := by
  rw [trackPK, keepLast_foldl]
  cases (fms.filter (fun f => f.isPK)).getLast? <;> rfl

/-- The if/elif cascade of the source equals the single amended
insertion rule: before an uppercase character, insert when the previous
character is lowercase, or when it is neither an underscore nor
lowercase and the next character is lowercase. -/
theorem snakeCore_eq_amended : ∀ (l : List Char) (prev : Char),
    snakeCore prev l = specSnakeCore insAmended prev l := by
  intro l
  induction l with
  | nil => intro prev; rfl
  | cons c rest ih =>
    intro prev
    by_cases h1 : c = '_'
    · simp [snakeCore, specSnakeCore, insAmended, h1, ih]
    · by_cases h2 : isUpperAscii c = true
      · by_cases h3 : prev = '_'
        · simp [snakeCore, specSnakeCore, insAmended, h1, h2, h3, ih]
        · by_cases h4 : isLowerAscii prev = true
          · simp [snakeCore, specSnakeCore, insAmended, h1, h2, h3, h4, ih]
          · cases hh : rest.head? with
            | none =>
              simp [snakeCore, specSnakeCore, insAmended, h1, h2, h3, h4, hh, ih]
            | some n =>
              by_cases h5 : isLowerAscii n = true
              · simp [snakeCore, specSnakeCore, insAmended, h1, h2, h3, h4, hh, h5, ih]
              · simp [snakeCore, specSnakeCore, insAmended, h1, h2, h3, h4, hh, h5, ih]
      · simp [snakeCore, specSnakeCore, insAmended, h1, h2, ih]

/-! Claim theorems. -/

/-- C1: when a `Parse` call succeeds, the descriptor is stored in the
registry under the type's key, a second `Parse` call on the same type
without an intervening reset returns that very cached descriptor and
leaves the registry untouched (no re-derivation), and the cached
descriptor survives — and is still what a repeat call returns after —
any interleaved `Parse` call on another value. -/
theorem parse_cache_idempotent (reg : Registry) (t0 : GoType) (m : EntityMeta)
    (reg2 : Registry) (h : Parse reg (some t0) = (.ok m, reg2)) :
    regLookup reg2 (typeString (derefOnce t0)) = some m
    ∧ Parse reg2 (some t0) = (.ok m, reg2)
    ∧ ∀ v, Parse (Parse reg2 v).2 (some t0) = (.ok m, (Parse reg2 v).2) := by
  have hstore : regLookup reg2 (typeString (derefOnce t0)) = some m := by
    simp only [Parse] at h
    split at h
    · injection h with h1 h2
      injection h1 with h3
      rw [← h2, ← h3]
      assumption
    · split at h
      · injection h with h1 h2
        injection h1 with h3
        rw [← h2, ← h3]
        simp [regLookup, List.find?]
      · exact absurd (congrArg Prod.fst h) (by simp)
  refine ⟨hstore, parse_hit reg2 t0 m hstore, fun v => ?_⟩
  exact parse_hit _ t0 m (regLookup_preserved reg2 v _ m hstore)

/-- C1 witness: parsing the User entity on a fresh registry stores its
descriptor, and the repeat call returns the same cached descriptor with
the registry unchanged. -/
theorem parse_cache_idempotent_witness :
    Parse userReg1 (some (.struct_ userStruct)) = (.ok userMeta, userReg1) :=
  (parse_cache_idempotent emptyRegistry (.struct_ userStruct) userMeta userReg1 rfl).2.1

/-- C2 counterexample: a primitive input (an int value) cannot be
resolved to a structural type, yet `Parse` does not fail with a
ParseError — it panics inside reflection; its error result is never
non-nil. -/
theorem parse_primitive_panics_not_error :
    resolvesToStruct (some (GoType.prim "int")) = false
    ∧ (Parse emptyRegistry (some (GoType.prim "int"))).1 = .panics structPanicMsg
    ∧ (Parse emptyRegistry (some (GoType.prim "int"))).1.isErr = false :=
  ⟨rfl, rfl, rfl⟩

/-- C2 amended: `Parse` never returns a non-nil error; it succeeds
(returns a descriptor) for every struct or pointer-to-struct input, and
on an input that cannot be resolved to a structural type it panics
instead of returning a ParseError — at `t.Kind()` for a nil value, and
at `t.FieldByName` for an uncached non-struct type. -/
theorem parse_error_amended (reg : Registry) (v : Option GoType) :
    (Parse reg v).1.isErr = false
    ∧ (resolvesToStruct v = true → ∃ m, (Parse reg v).1 = .ok m)
    ∧ (v = none → (Parse reg v).1 = .panics nilPanicMsg)
    ∧ (∀ t0, v = some t0 → resolvesToStruct v = false →
        regLookup reg (typeString (derefOnce t0)) = none →
        (Parse reg v).1 = .panics structPanicMsg) := by
  cases v with
  | none =>
    refine ⟨rfl, ?_, fun _ => rfl, ?_⟩
    · intro hres; exact absurd hres (by simp [resolvesToStruct])
    · intro t0 hv; exact absurd hv (by simp)
  | some t0 =>
    cases hl : regLookup reg (typeString (derefOnce t0)) with
    | some m0 =>
      refine ⟨?_, ?_, ?_, ?_⟩
      · simp [Parse, hl, ParseResult.isErr]
      · intro _; exact ⟨m0, by simp [Parse, hl]⟩
      · intro hv; exact absurd hv (by simp)
      · intro t1 hv _ hl2
        injection hv with hv1
        rw [← hv1] at hl2
        rw [hl2] at hl
        exact absurd hl (by simp)
    | none =>
      cases ht : derefOnce t0 with
      | struct_ s =>
        rw [ht] at hl
        refine ⟨?_, ?_, ?_, ?_⟩
        · simp [Parse, hl, ht, ParseResult.isErr]
        · intro _; exact ⟨buildMeta s, by simp [Parse, hl, ht]⟩
        · intro hv; exact absurd hv (by simp)
        · intro t1 hv hres _
          exact absurd hres (by simp [resolvesToStruct, ht])
      | ptr t =>
        rw [ht] at hl
        refine ⟨?_, ?_, ?_, ?_⟩
        · simp [Parse, hl, ht, ParseResult.isErr]
        · intro hres; exact absurd hres (by simp [resolvesToStruct, ht])
        · intro hv; exact absurd hv (by simp)
        · intro t1 hv _ _; simp [Parse, hl, ht]
      | prim n =>
        rw [ht] at hl
        refine ⟨?_, ?_, ?_, ?_⟩
        · simp [Parse, hl, ht, ParseResult.isErr]
        · intro hres; exact absurd hres (by simp [resolvesToStruct, ht])
        · intro hv; exact absurd hv (by simp)
        · intro t1 hv _ _; simp [Parse, hl, ht]

/-- C2 amended witness: at concrete inputs — a primitive panics rather
than erroring, a pointer to the User struct succeeds, and a nil value
panics with the nil-dereference fault. -/
theorem parse_error_amended_witness :
    (Parse emptyRegistry (some (GoType.prim "float64"))).1 = .panics structPanicMsg
    ∧ (∃ m, (Parse emptyRegistry (some (GoType.ptr (.struct_ userStruct)))).1 = .ok m)
    ∧ (Parse emptyRegistry none).1 = .panics nilPanicMsg :=
  ⟨(parse_error_amended emptyRegistry (some (.prim "float64"))).2.2.2
      (.prim "float64") rfl rfl rfl,
   (parse_error_amended emptyRegistry (some (.ptr (.struct_ userStruct)))).2.1 rfl,
   (parse_error_amended emptyRegistry none).2.2.1 rfl⟩

/-- C3 counterexample: in a struct whose fields A and B are both marked
primary key, the first pk-flagged field in declaration order is A, yet
the parsed descriptor's primary-key reference points to B — the claim
that the first match wins and is not overwritten is false. -/
theorem pk_first_wins_refuted :
    (Parse emptyRegistry (some (.struct_ pairStruct))).1 = .ok pairMeta
    ∧ ((pairMeta.fields.filter (fun f => f.isPK)).head?.map (fun f => f.name)) = some "A"
    ∧ pairMeta.pkField.map (fun f => f.name) = some "B"
    ∧ pairMeta.pkField ≠ (pairMeta.fields.filter (fun f => f.isPK)).head? := by
  refine ⟨rfl, by decide, by decide, by decide⟩

/-- C3 amended: the parsed descriptor's primary-key reference points to
the LAST visible pk-flagged field in declaration order — every
subsequent match overwrites the previous one. -/
theorem pk_last_wins (s : GoStruct) (m : EntityMeta) (reg2 : Registry)
    (h : Parse emptyRegistry (some (.struct_ s)) = (.ok m, reg2)) :
    m.pkField = (m.fields.filter (fun f => f.isPK)).getLast? := by
  have hm : m = buildMeta s := by
    simp only [Parse, regLookup, emptyRegistry, List.find?, Option.map] at h
    injection h with h1 h2
    injection h1 with h3
    exact h3.symm
  rw [hm]
  show trackPK (visibleFieldMetas s.fields)
      = ((visibleFieldMetas s.fields).filter (fun f => f.isPK)).getLast?
  exact trackPK_eq_getLast? _

/-- C3 amended witness: for the two-pk struct the descriptor's primary
key equals the last pk-flagged field. -/
theorem pk_last_wins_witness :
    pairMeta.pkField = (pairMeta.fields.filter (fun f => f.isPK)).getLast? :=
  pk_last_wins pairStruct pairMeta pairReg1 rfl

/-- C4 counterexample: on "A1Bc" the code inserts an underscore before
B although the previous character 1 is neither lowercase (rule a) nor
uppercase (rule b) — the code's output differs from the claimed rule's
output. -/
theorem snake_case_claim_rule_refuted :
    toSnakeCase "A1Bc" = "a1_bc"
    ∧ snakeCaseClaim "A1Bc" = "a1bc"
    ∧ toSnakeCase "A1Bc" ≠ snakeCaseClaim "A1Bc" := by
  refine ⟨by decide, by decide, by decide⟩

/-- C4 amended: the naming transform lower-cases everything and inserts
an underscore before an uppercase character exactly when (a) the
previous character is lowercase, or (b) the previous character is
neither an underscore nor lowercase and the next character is
lowercase; never at index 0; existing underscores pass through and
suppress adjacent insertion. The claimed table entries all hold. -/
theorem snake_case_amended :
    (∀ s : String, toSnakeCase s = snakeCaseAmended s)
    ∧ toSnakeCase "UserName" = "user_name"
    ∧ toSnakeCase "ID" = "id"
    ∧ toSnakeCase "Product" = "product"
    ∧ toSnakeCase "HTTPServer" = "http_server" := by
  refine ⟨?_, by decide, by decide, by decide, by decide⟩
  intro s
  cases h : s.data with
  | nil => simp [toSnakeCase, snakeCaseAmended, h]
  | cons c rest => simp [toSnakeCase, snakeCaseAmended, h, snakeCore_eq_amended]

/-- C5: the parsed descriptor's table name is the override taken from a
table:<name> fragment of the storage-mapping (gorm) annotation when one
is present and nonempty, and otherwise the pluralized snake_case of the
type's declared name. -/
theorem table_name_resolution (s : GoStruct) (m : EntityMeta) (reg2 : Registry)
    (h : Parse emptyRegistry (some (.struct_ s)) = (.ok m, reg2)) :
    (∀ gf, s.fields.find? (fun f => f.name = "gorm") = some gf →
        parseGormTag gf.gormTag ≠ "" → m.tableName = parseGormTag gf.gormTag)
    ∧ (∀ gf, s.fields.find? (fun f => f.name = "gorm") = some gf →
        parseGormTag gf.gormTag = "" → m.tableName = toSnakeCase s.name ++ "s")
    ∧ (s.fields.find? (fun f => f.name = "gorm") = none →
        m.tableName = toSnakeCase s.name ++ "s") := by
  have hm : m = buildMeta s := by
    simp only [Parse, regLookup, emptyRegistry, List.find?, Option.map] at h
    injection h with h1 h2
    injection h1 with h3
    exact h3.symm
  subst hm
  refine ⟨?_, ?_, ?_⟩
  · intro gf hgf hne
    simp [buildMeta, hgf, hne]
  · intro gf hgf hz
    simp [buildMeta, hgf, hz]
  · intro hnone
    simp [buildMeta, hnone]

/-- C5 witness: the spec scenario — User maps to table users, Product
to products — and an explicit table:stock override replaces the
default. -/
theorem table_name_resolution_witness :
    userMeta.tableName = "users"
    ∧ productMeta.tableName = "products"
    ∧ invMeta.tableName = "stock" := by
  have h1 := (table_name_resolution userStruct userMeta userReg1 rfl).2.2 rfl
  have h2 := (table_name_resolution productStruct productMeta productReg1 rfl).2.2 rfl
  have h3 := (table_name_resolution invStruct invMeta invReg1 rfl).1
    ⟨"gorm", "", "table:stock", false⟩ rfl (by decide)
  refine ⟨?_, ?_, ?_⟩
  · rw [h1]; decide
  · rw [h2]; decide
  · rw [h3]; decide

/-- C6: evaluated at the registered entity name "User", route
registration does produce exactly the five method/path registrations,
but the resource segment is the byte sequence 118, 148, 134, 147 —
`toURLPath` adds 33 to every byte instead of lower-casing — which is
not the lowercased name "user"; the code contradicts its own comment
("Simple lowercase" / kebab-case). -/
theorem toURLPath_user_evaluation :
    toURLPath "User" = [118, 148, 134, 147]
    ∧ toURLPath "User" ≠ strBytes "user"
    ∧ RegisterEntityRoutes userMeta =
        [ (.post, 47 :: [118, 148, 134, 147]),
          (.get, 47 :: [118, 148, 134, 147]),
          (.get, 47 :: ([118, 148, 134, 147] ++ idSegment)),
          (.put, 47 :: ([118, 148, 134, 147] ++ idSegment)),
          (.delete_, 47 :: ([118, 148, 134, 147] ++ idSegment)) ]
    ∧ (RegisterEntityRoutes userMeta).length = 5 := by
  refine ⟨by decide, by decide, by decide, by decide⟩

/-- C7: the parsed descriptor's aggregate sequence is empty for every
struct — parseField constructs the count/sum AggregateMeta and discards
it — so for the Order struct whose Total field carries count:Items the
field is parsed but the aggregate lookup accessor finds nothing. -/
theorem aggregates_never_recorded :
    (∀ s : GoStruct, (buildMeta s).aggregates = [])
    ∧ (GetFieldByName (buildMeta orderStruct) "Total").isSome = true
    ∧ GetAggregateByName (buildMeta orderStruct) "Total" = none
    ∧ (buildMeta orderStruct).aggregates = [] := by
  refine ⟨fun s => rfl, by decide, by decide, rfl⟩

/-- C8: a repository whose driver handle is nil returns the
NoStorageConfigured error (gorm.ErrInvalidDB) from each of the six
operations, with an empty storage-call trace — no storage operation is
invoked — and, being total functions, without panicking or blocking. -/
theorem repo_no_driver_errors (T : Type) (r : Repository T) (ctx : Ctx) (e : T)
    (id : Nat) (h : r.db = none) :
    r.create ctx e = (.error NoStorageConfigured, [])
    ∧ r.getByID ctx id = (.error NoStorageConfigured, [])
    ∧ r.getAll ctx = (.error NoStorageConfigured, [])
    ∧ r.update ctx e = (.error NoStorageConfigured, [])
    ∧ r.delete ctx id = (.error NoStorageConfigured, [])
    ∧ r.count ctx = (.error NoStorageConfigured, []) := by
  obtain ⟨db, meta⟩ := r
  cases h
  exact ⟨rfl, rfl, rfl, rfl, rfl, rfl⟩

/-- C8 witness: the driverless repository at concrete inputs. -/
theorem repo_no_driver_errors_witness :
    noDbRepo.create Ctx.mk () = (.error NoStorageConfigured, [])
    ∧ noDbRepo.getAll Ctx.mk = (.error NoStorageConfigured, [])
    ∧ noDbRepo.count Ctx.mk = (.error NoStorageConfigured, []) :=
  ⟨(repo_no_driver_errors Unit noDbRepo Ctx.mk () 0 rfl).1,
   (repo_no_driver_errors Unit noDbRepo Ctx.mk () 0 rfl).2.2.1,
   (repo_no_driver_errors Unit noDbRepo Ctx.mk () 0 rfl).2.2.2.2.2⟩

/-- C9: for each of the six dispatch operations, an entity implementing
the hook interface has the hook invoked exactly once per dispatch call
(invocation count 1) with its updated receiver state and returned error
propagated verbatim, while an entity not implementing it yields success
with zero invocations and an unchanged entity. -/
theorem hook_dispatch_behavior (S : Type) (ctx : Ctx) (tx : Tx) (e : HookEntity S) :
    (∀ f, e.beforeCreateImpl = some f →
      CallBeforeCreate ctx e tx =
        ({ e with state := (f ctx tx e.state).1 }, (f ctx tx e.state).2, 1))
    ∧ (e.beforeCreateImpl = none → CallBeforeCreate ctx e tx = (e, none, 0))
    ∧ (∀ f, e.afterCreateImpl = some f →
      CallAfterCreate ctx e tx =
        ({ e with state := (f ctx tx e.state).1 }, (f ctx tx e.state).2, 1))
    ∧ (e.afterCreateImpl = none → CallAfterCreate ctx e tx = (e, none, 0))
    ∧ (∀ f, e.beforeUpdateImpl = some f →
      CallBeforeUpdate ctx e tx =
        ({ e with state := (f ctx tx e.state).1 }, (f ctx tx e.state).2, 1))
    ∧ (e.beforeUpdateImpl = none → CallBeforeUpdate ctx e tx = (e, none, 0))
    ∧ (∀ f, e.afterUpdateImpl = some f →
      CallAfterUpdate ctx e tx =
        ({ e with state := (f ctx tx e.state).1 }, (f ctx tx e.state).2, 1))
    ∧ (e.afterUpdateImpl = none → CallAfterUpdate ctx e tx = (e, none, 0))
    ∧ (∀ f, e.beforeDeleteImpl = some f →
      CallBeforeDelete ctx e tx =
        ({ e with state := (f ctx tx e.state).1 }, (f ctx tx e.state).2, 1))
    ∧ (e.beforeDeleteImpl = none → CallBeforeDelete ctx e tx = (e, none, 0))
    ∧ (∀ f, e.afterDeleteImpl = some f →
      CallAfterDelete ctx e tx =
        ({ e with state := (f ctx tx e.state).1 }, (f ctx tx e.state).2, 1))
    ∧ (e.afterDeleteImpl = none → CallAfterDelete ctx e tx = (e, none, 0)) := by
  refine ⟨fun f hf => ?_, fun hf => ?_, fun f hf => ?_, fun hf => ?_,
    fun f hf => ?_, fun hf => ?_, fun f hf => ?_, fun hf => ?_,
    fun f hf => ?_, fun hf => ?_, fun f hf => ?_, fun hf => ?_⟩
  all_goals
    simp only [CallBeforeCreate, CallAfterCreate, CallBeforeUpdate, CallAfterUpdate,
      CallBeforeDelete, CallAfterDelete, dispatchHook, hf]

/-- C9 witness: the mock entity implementing all hooks has its
BeforeCreate invoked once with its result propagated, the bare entity
yields success with zero invocations, the failing hook's error is
propagated verbatim, and six sequential dispatch calls on the mock set
all six called flags. -/
theorem hook_dispatch_behavior_witness :
    CallBeforeCreate Ctx.mk mockEntity Tx.mk =
      ({ mockEntity with state := (mockBC Ctx.mk Tx.mk mockEntity.state).1 },
        (mockBC Ctx.mk Tx.mk mockEntity.state).2, 1)
    ∧ CallBeforeCreate Ctx.mk bareEntity Tx.mk = (bareEntity, none, 0)
    ∧ CallAfterDelete Ctx.mk bareEntity Tx.mk = (bareEntity, none, 0)
    ∧ (CallBeforeCreate Ctx.mk failEntity Tx.mk).2.1 = some ⟨"before create failed"⟩
    ∧ ((CallAfterDelete Ctx.mk
          (CallBeforeDelete Ctx.mk
            (CallAfterUpdate Ctx.mk
              (CallBeforeUpdate Ctx.mk
                (CallAfterCreate Ctx.mk
                  (CallBeforeCreate Ctx.mk mockEntity Tx.mk).1
                 Tx.mk).1
               Tx.mk).1
             Tx.mk).1
           Tx.mk).1
         Tx.mk).1).state = ⟨true, true, true, true, true, true⟩ := by
  refine ⟨(hook_dispatch_behavior Flags Ctx.mk Tx.mk mockEntity).1 mockBC rfl,
    (hook_dispatch_behavior Flags Ctx.mk Tx.mk bareEntity).2.1 rfl,
    (hook_dispatch_behavior Flags Ctx.mk Tx.mk bareEntity).2.2.2.2.2.2.2.2.2.2.2 rfl,
    ?_, ?_⟩
  · rw [(hook_dispatch_behavior Flags Ctx.mk Tx.mk failEntity).1 mockFailBC rfl]
    rfl
  · rfl

/-- C10: whenever the storage-mapping (gorm) tag of a field contains
the character sequence "primaryKey" anywhere — standalone fragment or
not — the parsed field metadata has its primary-key flag set. -/
theorem gorm_primaryKey_substring (sf : GoField)
    (h : goContains sf.gormTag "primaryKey" = true) :
    (parseField sf).isPK = true := by
  rw [parseField]
  simp only [h, if_true, ite_true]

/-- C10 witness: a field whose gorm tag is column:oldprimaryKeyCol — no
standalone primaryKey fragment, the sequence only occurs inside a
longer fragment — still gets its primary-key flag. -/
theorem gorm_primaryKey_substring_witness :
    goContains taggedField.gormTag "primaryKey" = true
    ∧ ((goSplit taggedField.gormTag ';').all
        (fun p => trimSpace p ≠ "primaryKey")) = true
    ∧ (parseField taggedField).isPK = true :=
  ⟨by decide, by decide, gorm_primaryKey_substring taggedField (by decide)⟩

end GoBlar
